import Mathlib

/-!
Shallow embedding of `darq/app.py` (the `Darq` task-queue facade): Python
values and dict operations, the connection lifecycle (`__init__` lines 64-67,
`connect`, `disconnect`), the task `delay` entry point, the job-coroutine
wrapper (`wrap_job_coroutine`), cron-job binding (`add_cron_jobs`) and the
constructor (`__init__`), together with theorems settling the specification
claims about them.
-/

namespace Darq

/-- Primitive (non-container) Python values appearing in job keyword
arguments and metadata entries. -/
inductive Prim where
  | pnone
  | pbool (b : Bool)
  | pint (n : Int)
  | pstr (s : String)
deriving DecidableEq

/-- A metadata mapping: the dict produced by the pre-publish hook
(string keys, primitive values; Python dicts modelled as assoc lists). -/
abbrev Meta := List (String × Prim)

/-- Values stored in a job call's keyword arguments: primitives, timedeltas
(`_expires` values, in seconds), strings live inside `Prim`, and the one
dict-valued entry the code ever stores there: the `__metadata__` mapping. -/
inductive Val where
  | prim (p : Prim)
  | vtd (seconds : Int)
  | vmeta (m : Meta)
deriving DecidableEq

/-- Python truthiness of a primitive: `None`, `False`, `0` and `""` are
falsy, everything else truthy. -/
def primTruthy : Prim → Bool
  | .pnone => false
  | .pbool b => b
  | .pint n => n != 0
  | .pstr s => s != ""

/-- Python truthiness of a keyword-argument value: a timedelta is falsy iff
it is zero, a dict is falsy iff it is empty. -/
def pyTruthy : Val → Bool
  | .prim p => primTruthy p
  | .vtd n => n != 0
  | .vmeta m => !m.isEmpty

/-- Lookup in a Python dict modelled as an association list (first match). -/
def alLookup {κ α : Type} [DecidableEq κ] : List (κ × α) → κ → Option α
  | [], _ => none
  | (k, v) :: rest, key => if k = key then some v else alLookup rest key

/-- Python `key in dict`. -/
def alContains {κ α : Type} [DecidableEq κ] (l : List (κ × α)) (key : κ) : Bool :=
  (alLookup l key).isSome

/-- Python `dict[key] = v`: replace the entry if the key is present,
otherwise append a new entry. -/
def alSet {κ α : Type} [DecidableEq κ] : List (κ × α) → κ → α → List (κ × α)
  | [], key, v => [(key, v)]
  | (k, w) :: rest, key, v =>
    if k = key then (key, v) :: rest else (k, w) :: alSet rest key v

/-- The removal part of Python `dict.pop(key)`: drop the entry for `key`. -/
def alErase {κ α : Type} [DecidableEq κ] : List (κ × α) → κ → List (κ × α)
  | [], _ => []
  | (k, w) :: rest, key => if k = key then rest else (k, w) :: alErase rest key

/-- Keyword arguments of a task call: a Python dict of `Val`s. -/
abbrev Kw := List (String × Val)

/-- A live broker-connection handle identity (`ArqRedis` object). -/
abbrev Redis := Nat

/-- Values stored in the application's configuration dict: a connection pool,
a reference to a cron-jobs list on the heap, a redis-settings object, or some
other opaque object carrying only its truthiness. Container truthiness for a
list value stored in config is approximated as truthy (the code never tests a
list's truthiness on the paths modelled here). -/
inductive DV where
  | pool (p : Redis)
  | cronList (r : Nat)
  | settings (s : Nat)
  | other (truthy : Bool)
deriving DecidableEq

/-- Python truthiness of a configuration value. -/
def dvTruthy : DV → Bool
  | .pool _ => true
  | .cronList _ => true
  | .settings _ => true
  | .other b => b

/-- Truthiness of `self.redis` (`not self.redis` tests): `None` is falsy,
a held object is tested by its own truthiness. -/
def optTruthy : Option DV → Bool
  | none => false
  | some v => dvTruthy v

/-- The connection-lifecycle fields of the application:
`self.connected : bool` and `self.redis : Optional[ArqRedis]`. -/
structure ConnState where
  connected : Bool
  redis : Option DV
deriving DecidableEq

/-- Observable broker-level actions of `connect`/`disconnect`:
`arq.create_pool(...)`, `redis.close()`, `await redis.wait_closed()`. -/
inductive ConnEvent where
  | createPool
  | close
  | waitClosed
deriving DecidableEq

/-- Lines 64-67 of `__init__`: `self.redis = None`; if
`config.get('redis_pool')` is truthy, `self.redis = config['redis_pool']`;
`self.connected = bool(self.redis)`. `cfg` is the caller's config dict. -/
def initConn (cfg : List (String × DV)) : ConnState :=
  let redis : Option DV :=
    match alLookup cfg "redis_pool" with
    | some v => if dvTruthy v then some v else none
    | none => none
  { connected := optTruthy redis, redis := redis }

/-- `Darq.connect(redis_pool=None)`: return immediately when already
connected; otherwise install the supplied pool if it is truthy, else create a
new pool (`fresh` is the pool `arq.create_pool` would return); finally set
`connected = True`. The event list records the broker-level actions taken. -/
def connect (st : ConnState) (redis_pool : Option DV) (fresh : Redis) :
    ConnState × List ConnEvent :=
  if st.connected then (st, [])
  else if optTruthy redis_pool then
    ({ connected := true, redis := redis_pool }, [])
  else
    ({ connected := true, redis := some (.pool fresh) }, [ConnEvent.createPool])

/-- `Darq.disconnect()`: return immediately when not connected; otherwise,
if `self.redis` is truthy, close it and await closure; set
`connected = False`. Note the handle field is not cleared. -/
def disconnect (st : ConnState) : ConnState × List ConnEvent :=
  if st.connected then
    let ev : List ConnEvent :=
      if optTruthy st.redis then [ConnEvent.close, ConnEvent.waitClosed] else []
    ({ st with connected := false }, ev)
  else (st, [])

/-- The spec's ConnectionState invariant: `connected == true` iff a live
handle is held. -/
def connInv (st : ConnState) : Prop :=
  st.connected = true ↔ st.redis.isSome = true

/-- The one-directional invariant: `connected == true` implies the redis
field is non-null. -/
def connImpl (st : ConnState) : Prop :=
  st.connected = true → st.redis.isSome = true

/-- Identity of an original (unwrapped) user function, the key of the
registry's `by_original_coro` mapping. -/
abbrev FnId := Nat

/-- The descriptor `arq.worker.func(...)` returns for a wrapped task:
its deterministic name and its (wrapped) coroutine identity. -/
structure ArqFunction where
  name : String
  coroutine : FnId
deriving DecidableEq

/-- Modelled from the spec: `registry.py` is not under `src/`; per spec
section 4.1 the Registry is a mapping from original-function identity to the
registered task descriptor (`by_original_coro`), with insertion and lookup. -/
structure Registry where
  by_original_coro : List (FnId × ArqFunction)
deriving DecidableEq

/-- Lookup in `registry.by_original_coro` (Python dict indexing). -/
def regLookup (reg : Registry) (f : FnId) : Option ArqFunction :=
  alLookup reg.by_original_coro f

/-- Exceptions raised by hooks or by the task body, carried opaquely so that
"propagates unchanged" is expressible; `keyError` is the dict-indexing
failure of an unregistered function in the wrapper. -/
inductive Exn where
  | keyError
  | err (n : Nat)
deriving DecidableEq

/-- Exceptions of the `Darq` layer itself (`DarqConfigError`,
`DarqException`, `DarqConnectionError`, plus the interpreter-level type
error for iterating a non-list). -/
inductive DarqErr where
  | configError
  | darqException
  | connectionError
  | typeError
deriving DecidableEq

/-- A pre-publish hook: it receives an initially-empty metadata dict, the
descriptor, args and kwargs, and mutates the metadata in place; its net
effect is the metadata mapping it produced. -/
abbrev PrepubHook := List Val → Kw → Meta

/-- A pre-run hook: receives (ctx, descriptor, args, kwargs); may raise. -/
abbrev PreHook := Kw → ArqFunction → List Val → Kw → Except Exn Unit

/-- A post-run hook: receives (ctx, descriptor, args, kwargs, result);
may raise. -/
abbrev PostHook := Kw → ArqFunction → List Val → Kw → Val → Except Exn Unit

/-- The original user function's body: receives args and kwargs; may raise. -/
abbrev Body := List Val → Kw → Except Exn Val

/-- The job context dict the engine passes to the wrapped coroutine. -/
abbrev Ctx := Kw

/-- `timedelta(days=1)` in seconds, the application's default job expiry. -/
def TD_1_DAY : Val := .vtd 86400

/-- Python `x or y` specialised to the `expires or self.default_job_expires`
expression of `delay`. -/
def pyOrVal (v d : Val) : Val := if pyTruthy v then v else d

/-- Observable actions of a `delay` call: running the pre-publish hook
(recording the metadata it produced), reaching the external enqueue
primitive (`self.redis.enqueue_job`), or attempting a broker connect.
`delay`'s source contains no connect call, so a `connectAttempt` event is
never emitted; stating that the event list is empty proves both that the
enqueue primitive is not reached and that no implicit connect is attempted. -/
inductive DelayEvent where
  | prepublish (meta : Meta)
  | enqueue (name : String) (args : List Val) (kw : Kw)
  | connectAttempt
deriving DecidableEq

/-- Lines 148-151 of `delay`: if the task declared a (truthy) default queue
and the caller did not pass `_queue_name`, inject it; if the caller did not
pass `_expires`, inject `expires or self.default_job_expires`. -/
def injectDefaults (queue : Option String) (expires defaultJobExpires : Val)
    (kwargs : Kw) : Kw :=
  let kw1 : Kw :=
    match queue with
    | some s =>
      if s ≠ "" ∧ alContains kwargs "_queue_name" = false then
        alSet kwargs "_queue_name" (.prim (.pstr s))
      else kwargs
    | none => kwargs
  if alContains kw1 "_expires" = false then
    alSet kw1 "_expires" (pyOrVal expires defaultJobExpires)
  else kw1

/-- The `delay` entry point produced by the `task` decorator (lines 147-165).
The closed-over pieces appear as parameters: the application's connection
state, its pre-publish hook, the task's declared `queue` and `expires`, the
application's `default_job_expires` and the task name. Returns the observable
events and either the connection error or the keyword arguments as forwarded
to `enqueue_job`. -/
def delay (conn : ConnState) (prepublish : Option PrepubHook)
    (queue : Option String) (expires defaultJobExpires : Val) (name : String)
    (args : List Val) (kwargs : Kw) : List DelayEvent × Except DarqErr Kw :=
  let kw2 := injectDefaults queue expires defaultJobExpires kwargs
  if ¬ conn.connected ∨ optTruthy conn.redis = false then
    ([], .error .connectionError)
  else
    match prepublish with
    | some hook =>
      let m := hook args kw2
      let kw3 := if m.isEmpty then kw2 else alSet kw2 "__metadata__" (.vmeta m)
      ([DelayEvent.prepublish m, DelayEvent.enqueue name args kw3], .ok kw3)
    | none =>
      ([DelayEvent.enqueue name args kw2], .ok kw2)

/-- Observable steps of one execution of the wrapped coroutine: the pre-run
hook call (with the ctx and kwargs it observes), the invocation of the
original function body, and the post-run hook call. -/
inductive WrapEvent where
  | prerunCall (ctx : Ctx) (kw : Kw)
  | bodyCall (args : List Val) (kw : Kw)
  | postrunCall (ctx : Ctx) (result : Val)
deriving DecidableEq

/-- Result of one execution of the wrapped coroutine: the job context after
the run (the code mutates it in place), the observable events in order, and
the outcome. -/
structure WrapRun where
  ctx : Ctx
  events : List WrapEvent
  result : Except Exn Val

/-- `wrap_job_coroutine`'s inner `wrapper` (lines 111-123): look the original
function up in the registry (a `KeyError` if absent); pop `__metadata__` from
the kwargs, defaulting to an empty dict, and store it on the ctx under
`metadata`; run the pre-run hook if configured; run the original function
body; run the post-run hook if configured; return the body's result. Any
exception propagates immediately, skipping the remaining steps. -/
def wrapper (reg : Registry) (prerun : Option PreHook) (postrun : Option PostHook)
    (function : FnId) (body : Body) (ctx : Ctx) (args : List Val)
    (kwargs : Kw) : WrapRun :=
  match regLookup reg function with
  | none => { ctx := ctx, events := [], result := .error .keyError }
  | some af =>
    let mv := (alLookup kwargs "__metadata__").getD (.vmeta [])
    let kw1 := alErase kwargs "__metadata__"
    let ctx1 := alSet ctx "metadata" mv
    let preEv : List WrapEvent :=
      match prerun with
      | some _ => [WrapEvent.prerunCall ctx1 kw1]
      | none => []
    let preRes : Except Exn Unit :=
      match prerun with
      | some hk => hk ctx1 af args kw1
      | none => .ok ()
    match preRes with
    | .error e => { ctx := ctx1, events := preEv, result := .error e }
    | .ok _ =>
      match body args kw1 with
      | .error e =>
        { ctx := ctx1, events := preEv ++ [WrapEvent.bodyCall args kw1],
          result := .error e }
      | .ok res =>
        match postrun with
        | some hk =>
          match hk ctx1 af args kw1 res with
          | .error e =>
            { ctx := ctx1,
              events := preEv ++ [WrapEvent.bodyCall args kw1,
                WrapEvent.postrunCall ctx1 res],
              result := .error e }
          | .ok _ =>
            { ctx := ctx1,
              events := preEv ++ [WrapEvent.bodyCall args kw1,
                WrapEvent.postrunCall ctx1 res],
              result := .ok res }
        | none =>
          { ctx := ctx1, events := preEv ++ [WrapEvent.bodyCall args kw1],
            result := .ok res }

/-- A heap cell for an object supplied in a `cron_jobs` list: either a
`CronJob` instance with its `coroutine` attribute, or some other object
(failing the `isinstance(job, CronJob)` check). -/
inductive CronCell where
  | cron (coroutine : FnId)
  | notCron
deriving DecidableEq

/-- A small heap of the mutable Python objects the constructor and
`add_cron_jobs` touch: configuration dicts, `cron_jobs` lists (holding
references to cron cells), and the cron-job objects themselves. References
are indices; allocation appends. This makes aliasing observable: the
constructor's `config.copy()` is a shallow copy sharing the list reference,
and `add_cron_jobs` mutates cron objects in place. -/
structure Heap where
  dicts : List (List (String × DV))
  lists : List (List Nat)
  crons : List CronCell
deriving DecidableEq

/-- `Darq.add_cron_jobs(*jobs)` (lines 92-104), operating on the heap:
for each supplied object, raise `DarqException` if it is not a `CronJob`
instance or if its `coroutine` is not in `registry.by_original_coro`;
otherwise rewrite the job's `coroutine` in place to the wrapped coroutine
and append the job (by reference) to the `cron_jobs` list at `listRef`
(the application's `self.config['cron_jobs']`). The heap reflects all
mutations performed before any exception. -/
def addCronJobs (reg : Registry) (h : Heap) (listRef : Nat) (jobs : List Nat) :
    Heap × Option DarqErr :=
  match jobs with
  | [] => (h, none)
  | a :: rest =>
    match h.crons.get? a with
    | some (.cron fid) =>
      match regLookup reg fid with
      | some af =>
        let h1 : Heap := { h with crons := h.crons.set a (.cron af.coroutine) }
        let h2 : Heap :=
          { h1 with lists := h1.lists.set listRef (h1.lists.getD listRef [] ++ [a]) }
        addCronJobs reg h2 listRef rest
      | none => (h, some .darqException)
    | _ => (h, some .darqException)

/-- The object supplied at position `a` of a cron-jobs argument list is
invalid for registry `reg`: not a `CronJob` instance (or a dangling
reference), or a `CronJob` whose coroutine is not registered. -/
def cronInvalid (reg : Registry) (h : Heap) (a : Nat) : Prop :=
  match h.crons.get? a with
  | some (.cron f) => regLookup reg f = none
  | some .notCron => True
  | none => True

/-- The application object as built by the constructor: its (empty, fresh)
registry, the reference to its own config dict (the copy), the reference to
its rewritten `cron_jobs` list, and its connection state. -/
structure DarqApp where
  registry : Registry
  configRef : Nat
  cronListRef : Nat
  conn : ConnState
deriving DecidableEq

/-- The tail of `__init__` after the reserved-key checks and the
`cron_jobs` pop: allocate the fresh empty `cron_jobs` list, point the
config copy (at `copyRef`) at it, bind the popped entries with the (still
empty) registry, and read the connection state off the caller's dict `d`
(lines 61-67). -/
def darqInitFinish (h2 : Heap) (copyRef : Nat) (d : List (String × DV))
    (elems : List Nat) : Heap × Except DarqErr DarqApp :=
  let newListRef := h2.lists.length
  let h3 : Heap := { h2 with lists := h2.lists ++ [[]] }
  let newDict := alSet (alErase d "cron_jobs") "cron_jobs" (.cronList newListRef)
  let h4 : Heap := { h3 with dicts := h3.dicts.set copyRef newDict }
  match addCronJobs { by_original_coro := [] } h4 newListRef elems with
  | (h5, some e) => (h5, .error e)
  | (h5, none) =>
    (h5, .ok { registry := { by_original_coro := [] }, configRef := copyRef,
               cronListRef := newListRef, conn := initConn d })

/-- `Darq.__init__` (lines 34-67) on the heap, `cfgRef` the caller's config
dict. In order: create an empty registry; copy the config (shallow: a new
dict with the same values, so a `cron_jobs` list is shared by reference);
raise `DarqConfigError` if `functions` or `queue_name` is present; pop
`cron_jobs` from the copy (default empty); store a fresh empty list as the
copy's `cron_jobs`; run `add_cron_jobs` over the popped entries (the
registry is empty at this point); finally take the connection state from
the caller's dict (lines 64-67 read `config`, not the copy). Iterating a
non-list `cron_jobs` value is the interpreter-level type error. -/
def darqInit (h : Heap) (cfgRef : Nat) : Heap × Except DarqErr DarqApp :=
  let d := h.dicts.getD cfgRef []
  let copyRef := h.dicts.length
  let h1 : Heap := { h with dicts := h.dicts ++ [d] }
  if alContains d "functions" then (h1, .error .configError)
  else if alContains d "queue_name" then (h1, .error .configError)
  else
    let cronv := alLookup d "cron_jobs"
    let h2 : Heap := { h1 with dicts := h1.dicts.set copyRef (alErase d "cron_jobs") }
    let elemsE : Except DarqErr (List Nat) :=
      match cronv with
      | some (.cronList r) => .ok (h2.lists.getD r [])
      | none => .ok []
      | some _ => .error .typeError
    match elemsE with
    | .error e => (h2, .error e)
    | .ok elems => darqInitFinish h2 copyRef d elems

/-! ### Dictionary lemmas -/

theorem alLookup_set_self {κ α : Type} [DecidableEq κ] (l : List (κ × α))
    (k : κ) (v : α) : alLookup (alSet l k v) k = some v := by
  induction l with
  | nil => simp [alSet, alLookup]
  | cons hd tl ih =>
    obtain ⟨k', w⟩ := hd
    by_cases h : k' = k
    · simp [alSet, alLookup, h]
    · simp [alSet, alLookup, h, ih]

theorem alLookup_set_ne {κ α : Type} [DecidableEq κ] (l : List (κ × α))
    (k k' : κ) (v : α) (h : k ≠ k') :
    alLookup (alSet l k v) k' = alLookup l k' := by
  induction l with
  | nil => simp [alSet, alLookup, h]
  | cons hd tl ih =>
    obtain ⟨k0, w⟩ := hd
    by_cases h0 : k0 = k
    · subst h0
      simp [alSet, alLookup, h]
    · simp [alSet, alLookup, h0, ih]

theorem alErase_of_not_contains {κ α : Type} [DecidableEq κ]
    (l : List (κ × α)) (k : κ) (h : alContains l k = false) :
    alErase l k = l := by
  induction l with
  | nil => simp [alErase]
  | cons hd tl ih =>
    obtain ⟨k0, w⟩ := hd
    by_cases h0 : k0 = k
    · subst h0
      simp [alContains, alLookup] at h
    · simp [alContains, alLookup, h0] at h
      simp [alErase, h0, ih (by simp [alContains, h])]

theorem alContains_set_ne {κ α : Type} [DecidableEq κ] (l : List (κ × α))
    (k k' : κ) (v : α) (h : k ≠ k') :
    alContains (alSet l k v) k' = alContains l k' := by
  simp [alContains, alLookup_set_ne l k k' v h]

theorem optTruthy_isSome (p : Option DV) (h : optTruthy p = true) :
    p.isSome = true := by
  cases p <;> simp [optTruthy] at h ⊢

/-- Keys other than `_queue_name` and `_expires` are untouched by the
default-injection step of `delay`. -/
theorem injectDefaults_lookup_other (queue : Option String)
    (expires defExp : Val) (kw : Kw) (k : String)
    (h1 : k ≠ "_queue_name") (h2 : k ≠ "_expires") :
    alLookup (injectDefaults queue expires defExp kw) k = alLookup kw k := by
  unfold injectDefaults
  cases queue with
  | none =>
    simp only
    split
    · exact alLookup_set_ne _ _ _ _ (Ne.symm h2)
    · rfl
  | some s =>
    simp only
    split
    · split
      · rw [alLookup_set_ne _ _ _ _ (Ne.symm h2),
          alLookup_set_ne _ _ _ _ (Ne.symm h1)]
      · exact alLookup_set_ne _ _ _ _ (Ne.symm h1)
    · split
      · exact alLookup_set_ne _ _ _ _ (Ne.symm h2)
      · rfl

/-! ### Connection lifecycle claims -/

/-- Claim C1: calling a task's `delay` entry point while the application is
not connected raises `DarqConnectionError`; the event list being empty shows
that the external enqueue primitive is not reached and that no implicit
connect is attempted. -/
theorem delay_not_connected_raises (conn : ConnState) (pp : Option PrepubHook)
    (queue : Option String) (expires defExp : Val) (name : String)
    (args : List Val) (kwargs : Kw) (hconn : conn.connected = false) :
    (delay conn pp queue expires defExp name args kwargs).2 =
      .error DarqErr.connectionError ∧
    (delay conn pp queue expires defExp name args kwargs).1 = [] := by
  simp [delay, hconn]

/-- Witness for C1: a freshly-constructed, never-connected application. -/
theorem delay_not_connected_raises_witness :
    (delay { connected := false, redis := none } none none (.prim .pnone)
      TD_1_DAY "add" [] []).2 = .error DarqErr.connectionError ∧
    (delay { connected := false, redis := none } none none (.prim .pnone)
      TD_1_DAY "add" [] []).1 = [] :=
  delay_not_connected_raises _ _ _ _ _ _ _ _ rfl

/-- Counterexample for C4: construct without a pool, `connect()`, then
`disconnect()`. `disconnect` clears `connected` but does not clear the
`redis` field, so `connected == true iff handle held` fails. -/
theorem connInv_fails_after_disconnect :
    ¬ connInv (disconnect (connect (initConn []) none 0).1).1 := by
  simp only [connInv]
  decide

/-- Claim C4 (amended): the invariant `connected == true iff a handle is
held` holds after construction and is preserved by `connect()`;
`disconnect()` however clears `connected` while leaving the handle field
unchanged, so after a disconnect that follows a successful connect only the
direction `connected implies handle held` survives. -/
theorem connInv_init_connect_disconnect :
    (∀ cfg, connInv (initConn cfg)) ∧
    (∀ st p f, connInv st → connInv (connect st p f).1) ∧
    (∀ st, st.connected = true →
      (disconnect st).1.connected = false ∧ (disconnect st).1.redis = st.redis) := by
  refine ⟨?_, ?_, ?_⟩
  · intro cfg
    unfold connInv initConn
    cases h : alLookup cfg "redis_pool" with
    | none => simp [optTruthy]
    | some v =>
      by_cases hd : dvTruthy v = true
      · simp [hd, optTruthy]
      · simp [hd, optTruthy]
  · intro st p f h
    unfold connect
    by_cases hc : st.connected
    · simpa [hc] using h
    · by_cases hp : optTruthy p = true
      · simp [hc, hp, connInv, optTruthy_isSome p hp]
      · simp [hc, hp, connInv]
  · intro st h
    simp [disconnect, h]

/-- Witness for the amended C4. -/
theorem connInv_init_connect_disconnect_witness :
    connInv (initConn []) ∧
    connInv (connect { connected := false, redis := none } none 5).1 ∧
    ((disconnect { connected := true, redis := some (.pool 3) }).1.connected = false ∧
     (disconnect { connected := true, redis := some (.pool 3) }).1.redis =
       some (DV.pool 3)) :=
  ⟨connInv_init_connect_disconnect.1 [],
   connInv_init_connect_disconnect.2.1 { connected := false, redis := none } none 5
     (by simp [connInv]),
   connInv_init_connect_disconnect.2.2 { connected := true, redis := some (.pool 3) } rfl⟩

/-- Claim C9: the one-directional invariant `connected implies the redis
field is non-null` holds after construction and is preserved by every
`connect()` and `disconnect()`. -/
theorem connImpl_preserved :
    (∀ cfg, connImpl (initConn cfg)) ∧
    (∀ st p f, connImpl st → connImpl (connect st p f).1) ∧
    (∀ st, connImpl st → connImpl (disconnect st).1) := by
  refine ⟨?_, ?_, ?_⟩
  · intro cfg
    unfold connImpl initConn
    cases h : alLookup cfg "redis_pool" with
    | none => simp [optTruthy]
    | some v =>
      by_cases hd : dvTruthy v = true
      · simp [hd, optTruthy]
      · simp [hd, optTruthy]
  · intro st p f h
    unfold connect
    by_cases hc : st.connected
    · simpa [hc] using h
    · by_cases hp : optTruthy p = true
      · simp [hc, hp, connImpl, optTruthy_isSome p hp]
      · simp [hc, hp, connImpl]
  · intro st h
    unfold disconnect
    by_cases hc : st.connected
    · simp [hc, connImpl]
    · simpa [hc] using h

/-- Witness for C9. -/
theorem connImpl_preserved_witness :
    connImpl (initConn [("redis_pool", DV.pool 2)]) ∧
    connImpl (connect { connected := false, redis := none } none 4).1 ∧
    connImpl (disconnect { connected := true, redis := some (.pool 4) }).1 :=
  ⟨connImpl_preserved.1 [("redis_pool", DV.pool 2)],
   connImpl_preserved.2.1 { connected := false, redis := none } none 4
     (by simp [connImpl]),
   connImpl_preserved.2.2 { connected := true, redis := some (.pool 4) }
     (by simp [connImpl])⟩

/-- Claim C5: starting disconnected, `connect(); connect(pool2)` creates a
pool exactly once (the second call performs no broker action and does not
replace the held handle, even when handed an explicit pool); starting
connected with a held handle, `disconnect(); disconnect()` closes exactly
once (the second call performs no broker action). -/
theorem connect_disconnect_idempotent (st st2 : ConnState) (f1 f2 : Redis)
    (p2 : Option DV) (v : DV) (h0 : st.connected = false)
    (h1 : st2.connected = true) (h2 : st2.redis = some v)
    (h3 : dvTruthy v = true) :
    ((connect st none f1).2 = [ConnEvent.createPool] ∧
     (connect (connect st none f1).1 p2 f2).2 = [] ∧
     (connect (connect st none f1).1 p2 f2).1.redis = (connect st none f1).1.redis) ∧
    ((disconnect st2).2 = [ConnEvent.close, ConnEvent.waitClosed] ∧
     (disconnect (disconnect st2).1).2 = []) := by
  constructor
  · refine ⟨?_, ?_, ?_⟩ <;> simp [connect, h0, optTruthy]
  · constructor
    · simp [disconnect, h1, h2, optTruthy, h3]
    · simp [disconnect, h1]

/-- Witness for C5. -/
theorem connect_disconnect_idempotent_witness :
    (((connect { connected := false, redis := none } none 1).2 = [ConnEvent.createPool] ∧
      (connect (connect { connected := false, redis := none } none 1).1
        (some (.pool 9)) 2).2 = [] ∧
      (connect (connect { connected := false, redis := none } none 1).1
        (some (.pool 9)) 2).1.redis =
        (connect { connected := false, redis := none } none 1).1.redis) ∧
     ((disconnect { connected := true, redis := some (.pool 1) }).2 =
        [ConnEvent.close, ConnEvent.waitClosed] ∧
      (disconnect (disconnect { connected := true, redis := some (.pool 1) }).1).2 = [])) :=
  connect_disconnect_idempotent { connected := false, redis := none }
    { connected := true, redis := some (.pool 1) } 1 2 (some (.pool 9)) (.pool 1)
    rfl rfl rfl rfl

/-! ### Wrapper claims -/

/-- Every hook-call event of a wrapped-coroutine run observes the job
context as updated with the popped metadata under the `metadata` key. -/
theorem wrapper_event_ctx (reg : Registry) (prerun : Option PreHook)
    (postrun : Option PostHook) (fn : FnId) (af : ArqFunction) (body : Body)
    (ctx : Ctx) (args : List Val) (kwargs : Kw)
    (hreg : regLookup reg fn = some af) :
    ∀ ev ∈ (wrapper reg prerun postrun fn body ctx args kwargs).events,
      (∀ c k, ev = WrapEvent.prerunCall c k →
        c = alSet ctx "metadata" ((alLookup kwargs "__metadata__").getD (.vmeta []))) ∧
      (∀ c r, ev = WrapEvent.postrunCall c r →
        c = alSet ctx "metadata" ((alLookup kwargs "__metadata__").getD (.vmeta []))) := by
  intro ev hmem
  unfold wrapper at hmem
  rw [hreg] at hmem
  simp only at hmem
  cases prerun <;>
    (repeat' split at hmem) <;>
    simp only [List.mem_append, List.mem_cons, List.mem_singleton,
      List.not_mem_nil, or_false, false_or] at hmem <;>
    aesop

/-- Claim C3: when the original function body raises, the exception
propagates unchanged, the post-run hook is never invoked, and the pre-run
hook has already completed before the body started (the event list is
exactly the pre-run call followed by the body call). `kw1` and `ctx1` are
the metadata-stripped kwargs and the metadata-augmented context. -/
theorem wrapper_body_failure (reg : Registry) (fn : FnId) (af : ArqFunction)
    (ph : PreHook) (postrun : Option PostHook) (body : Body) (ctx : Ctx)
    (args : List Val) (kwargs kw1 : Kw) (ctx1 : Ctx) (e : Exn)
    (hreg : regLookup reg fn = some af)
    (hkw : kw1 = alErase kwargs "__metadata__")
    (hctx : ctx1 = alSet ctx "metadata"
      ((alLookup kwargs "__metadata__").getD (.vmeta [])))
    (hpre : ph ctx1 af args kw1 = .ok ())
    (hbody : body args kw1 = .error e) :
    (wrapper reg (some ph) postrun fn body ctx args kwargs).result = .error e ∧
    (wrapper reg (some ph) postrun fn body ctx args kwargs).events =
      [WrapEvent.prerunCall ctx1 kw1, WrapEvent.bodyCall args kw1] ∧
    (∀ c r, WrapEvent.postrunCall c r ∉
      (wrapper reg (some ph) postrun fn body ctx args kwargs).events) := by
  subst hkw
  subst hctx
  unfold wrapper
  rw [hreg]
  simp [hpre, hbody]

/-- Witness for C3: a concrete task body raising exception 5 under
configured pre-run and post-run hooks. -/
theorem wrapper_body_failure_witness :
    (wrapper { by_original_coro := [(0, { name := "f", coroutine := 1 })] }
      (some fun _ _ _ _ => .ok ()) (some fun _ _ _ _ _ => .ok ()) 0
      (fun _ _ => .error (.err 5)) [] [Val.prim (.pint 3)] []).result =
        .error (Exn.err 5) ∧
    (wrapper { by_original_coro := [(0, { name := "f", coroutine := 1 })] }
      (some fun _ _ _ _ => .ok ()) (some fun _ _ _ _ _ => .ok ()) 0
      (fun _ _ => .error (.err 5)) [] [Val.prim (.pint 3)] []).events =
      [WrapEvent.prerunCall [("metadata", Val.vmeta [])] [],
       WrapEvent.bodyCall [Val.prim (.pint 3)] []] ∧
    (∀ c r, WrapEvent.postrunCall c r ∉
      (wrapper { by_original_coro := [(0, { name := "f", coroutine := 1 })] }
        (some fun _ _ _ _ => .ok ()) (some fun _ _ _ _ _ => .ok ()) 0
        (fun _ _ => .error (.err 5)) [] [Val.prim (.pint 3)] []).events) :=
  wrapper_body_failure _ 0 { name := "f", coroutine := 1 } _ _ _ [] _ [] _
    [("metadata", Val.vmeta [])] (.err 5) rfl rfl rfl rfl rfl

/-- Claim C8: when the kwargs carry no `__metadata__` entry, the wrapper
stores an empty mapping on the context under `metadata`, proceeds to invoke
the original function (given the pre-run hook, if any, succeeds), and the
function receives the keyword arguments unchanged (hence without the
reserved key). -/
theorem wrapper_missing_metadata (reg : Registry) (fn : FnId)
    (af : ArqFunction) (prerun : Option PreHook) (postrun : Option PostHook)
    (body : Body) (ctx : Ctx) (args : List Val) (kwargs : Kw)
    (hreg : regLookup reg fn = some af)
    (hm : alContains kwargs "__metadata__" = false)
    (hpre : ∀ ph, prerun = some ph →
      ph (alSet ctx "metadata" (.vmeta [])) af args kwargs = .ok ()) :
    alLookup (wrapper reg prerun postrun fn body ctx args kwargs).ctx
      "metadata" = some (Val.vmeta []) ∧
    WrapEvent.bodyCall args kwargs ∈
      (wrapper reg prerun postrun fn body ctx args kwargs).events ∧
    (∀ a k, WrapEvent.bodyCall a k ∈
        (wrapper reg prerun postrun fn body ctx args kwargs).events →
      a = args ∧ k = kwargs) := by
  have hnone : alLookup kwargs "__metadata__" = none := by
    cases h : alLookup kwargs "__metadata__" with
    | none => rfl
    | some v => simp [alContains, h] at hm
  have herase : alErase kwargs "__metadata__" = kwargs :=
    alErase_of_not_contains _ _ hm
  unfold wrapper
  rw [hreg]
  simp only [hnone, herase, Option.getD_none, Option.getD_some]
  cases prerun with
  | none =>
    cases hb : body args kwargs with
    | error e => simp [hb, alLookup_set_self]
    | ok res =>
      cases postrun with
      | none => simp [hb, alLookup_set_self]
      | some hk =>
        cases hhk : hk (alSet ctx "metadata" (.vmeta [])) af args kwargs res <;>
          simp [hb, hhk, alLookup_set_self]
  | some ph =>
    simp only [hpre ph rfl]
    cases hb : body args kwargs with
    | error e => simp [hb, alLookup_set_self]
    | ok res =>
      cases postrun with
      | none => simp [hb, alLookup_set_self]
      | some hk =>
        cases hhk : hk (alSet ctx "metadata" (.vmeta [])) af args kwargs res <;>
          simp [hb, hhk, alLookup_set_self]

/-- Witness for C8: a call with no metadata key, a configured pre-run hook
and a succeeding body. -/
theorem wrapper_missing_metadata_witness :
    alLookup (wrapper { by_original_coro := [(2, { name := "g", coroutine := 3 })] }
      (some fun _ _ _ _ => .ok ()) none 2 (fun _ _ => .ok (.prim .pnone)) []
      [] [("x", Val.prim (.pint 1))]).ctx "metadata" = some (Val.vmeta []) ∧
    WrapEvent.bodyCall [] [("x", Val.prim (.pint 1))] ∈
      (wrapper { by_original_coro := [(2, { name := "g", coroutine := 3 })] }
        (some fun _ _ _ _ => .ok ()) none 2 (fun _ _ => .ok (.prim .pnone)) []
        [] [("x", Val.prim (.pint 1))]).events ∧
    (∀ a k, WrapEvent.bodyCall a k ∈
        (wrapper { by_original_coro := [(2, { name := "g", coroutine := 3 })] }
          (some fun _ _ _ _ => .ok ()) none 2 (fun _ _ => .ok (.prim .pnone)) []
          [] [("x", Val.prim (.pint 1))]).events →
      a = [] ∧ k = [("x", Val.prim (.pint 1))]) :=
  wrapper_missing_metadata _ 2 { name := "g", coroutine := 3 } _ _ _ [] []
    [("x", Val.prim (.pint 1))] rfl rfl
    (fun ph h => by cases h; rfl)

/-- Claim C2: for every metadata mapping `m` produced by the configured
pre-publish hook during a successful `delay` call, feeding the forwarded
keyword arguments into the wrapped coroutine yields a job context whose
`metadata` entry equals `m` by value at every pre-run and post-run hook
observation (round-trip). The caller must not set the reserved `__metadata__`
key itself. -/
theorem delay_wrapper_metadata_roundtrip (conn : ConnState) (hook : PrepubHook)
    (queue : Option String) (expires defExp : Val) (name : String)
    (args : List Val) (kwargs : Kw) (reg : Registry) (fn : FnId)
    (af : ArqFunction) (prerun : Option PreHook) (postrun : Option PostHook)
    (body : Body) (ctx : Ctx) (kwF : Kw) (m : Meta)
    (hconn : conn.connected = true) (hredis : optTruthy conn.redis = true)
    (hm : alContains kwargs "__metadata__" = false)
    (hreg : regLookup reg fn = some af)
    (hout : (delay conn (some hook) queue expires defExp name args kwargs).2 =
      .ok kwF)
    (hevm : DelayEvent.prepublish m ∈
      (delay conn (some hook) queue expires defExp name args kwargs).1) :
    (∀ c k, WrapEvent.prerunCall c k ∈
        (wrapper reg prerun postrun fn body ctx args kwF).events →
      alLookup c "metadata" = some (Val.vmeta m)) ∧
    (∀ c r, WrapEvent.postrunCall c r ∈
        (wrapper reg prerun postrun fn body ctx args kwF).events →
      alLookup c "metadata" = some (Val.vmeta m)) := by
  simp only [delay, hconn, hredis, not_true, false_or, Bool.true_eq_false,
    if_false, ite_false] at hout hevm
  simp only [List.mem_cons, List.mem_singleton, List.not_mem_nil, or_false] at hevm
  have hme : m = hook args (injectDefaults queue expires defExp kwargs) := by
    rcases hevm with h | h
    · exact (DelayEvent.prepublish.injEq _ _).mp h
    · cases h
  have hkf : (if (hook args (injectDefaults queue expires defExp kwargs)).isEmpty = true
      then injectDefaults queue expires defExp kwargs
      else alSet (injectDefaults queue expires defExp kwargs) "__metadata__"
        (.vmeta (hook args (injectDefaults queue expires defExp kwargs)))) = kwF := by
    exact Except.ok.inj hout
  have hmv : (alLookup kwF "__metadata__").getD (.vmeta []) = Val.vmeta m := by
    by_cases he : (hook args (injectDefaults queue expires defExp kwargs)).isEmpty = true
    · rw [if_pos he] at hkf
      have hlook : alLookup kwF "__metadata__" = none := by
        rw [← hkf, injectDefaults_lookup_other _ _ _ _ _ (by decide) (by decide)]
        cases h : alLookup kwargs "__metadata__" with
        | none => rfl
        | some v => simp [alContains, h] at hm
      rw [hlook, Option.getD_none, hme, List.isEmpty_iff.mp he]
    · rw [if_neg he] at hkf
      rw [← hkf, alLookup_set_self, Option.getD_some, hme]
  constructor
  · intro c k hmem
    have h := (wrapper_event_ctx reg prerun postrun fn af body ctx args kwF hreg
      (WrapEvent.prerunCall c k) hmem).1 c k rfl
    rw [h, hmv]
    exact alLookup_set_self _ _ _
  · intro c r hmem
    have h := (wrapper_event_ctx reg prerun postrun fn af body ctx args kwF hreg
      (WrapEvent.postrunCall c r) hmem).2 c r rfl
    rw [h, hmv]
    exact alLookup_set_self _ _ _

/-- Witness for C2: a pre-publish hook producing `{trace: abc}`, forwarded
through `delay` and recovered in the context seen by the pre-run and
post-run hooks. -/
theorem delay_wrapper_metadata_roundtrip_witness :
    (∀ c k, WrapEvent.prerunCall c k ∈
        (wrapper { by_original_coro := [(0, { name := "f", coroutine := 1 })] }
          (some fun _ _ _ _ => .ok ()) (some fun _ _ _ _ _ => .ok ()) 0
          (fun _ _ => .ok (.prim .pnone)) [] []
          [("_expires", Val.vtd 86400),
           ("__metadata__", Val.vmeta [("trace", .pstr "abc")])]).events →
      alLookup c "metadata" = some (Val.vmeta [("trace", .pstr "abc")])) ∧
    (∀ c r, WrapEvent.postrunCall c r ∈
        (wrapper { by_original_coro := [(0, { name := "f", coroutine := 1 })] }
          (some fun _ _ _ _ => .ok ()) (some fun _ _ _ _ _ => .ok ()) 0
          (fun _ _ => .ok (.prim .pnone)) [] []
          [("_expires", Val.vtd 86400),
           ("__metadata__", Val.vmeta [("trace", .pstr "abc")])]).events →
      alLookup c "metadata" = some (Val.vmeta [("trace", .pstr "abc")])) :=
  delay_wrapper_metadata_roundtrip
    { connected := true, redis := some (.pool 0) }
    (fun _ _ => [("trace", .pstr "abc")]) none (.prim .pnone) TD_1_DAY "f" [] []
    { by_original_coro := [(0, { name := "f", coroutine := 1 })] } 0
    { name := "f", coroutine := 1 }
    (some fun _ _ _ _ => .ok ()) (some fun _ _ _ _ _ => .ok ())
    (fun _ _ => .ok (.prim .pnone)) []
    [("_expires", Val.vtd 86400),
     ("__metadata__", Val.vmeta [("trace", .pstr "abc")])]
    [("trace", .pstr "abc")] rfl rfl rfl rfl rfl (List.Mem.head _)

/-! ### Queue and expiry injection (claim C6) -/

theorem injectDefaults_expires_absent (queue : Option String)
    (expires defExp : Val) (kwargs : Kw)
    (h : alContains kwargs "_expires" = false) :
    alLookup (injectDefaults queue expires defExp kwargs) "_expires" =
      some (pyOrVal expires defExp) := by
  unfold injectDefaults
  cases queue with
  | none => simp [h, alLookup_set_self]
  | some s =>
    simp only
    split
    · rw [if_pos (by rw [alContains_set_ne _ _ _ _ (by decide)]; exact h)]
      exact alLookup_set_self _ _ _
    · simp [h, alLookup_set_self]

theorem injectDefaults_expires_present (queue : Option String)
    (expires defExp : Val) (kwargs : Kw) (v : Val)
    (h : alLookup kwargs "_expires" = some v) :
    alLookup (injectDefaults queue expires defExp kwargs) "_expires" = some v := by
  have hc : alContains kwargs "_expires" = true := by simp [alContains, h]
  unfold injectDefaults
  cases queue with
  | none => simp [hc, h]
  | some s =>
    simp only
    split
    · rw [if_neg (by rw [alContains_set_ne _ _ _ _ (by decide)]; simp [hc]),
        alLookup_set_ne _ _ _ _ (by decide)]
      exact h
    · simp [hc, h]

theorem injectDefaults_qn_present (queue : Option String)
    (expires defExp : Val) (kwargs : Kw) (v : Val)
    (h : alLookup kwargs "_queue_name" = some v) :
    alLookup (injectDefaults queue expires defExp kwargs) "_queue_name" =
      some v := by
  have hc : alContains kwargs "_queue_name" = true := by simp [alContains, h]
  cases queue with
  | none =>
    simp only [injectDefaults]
    split
    · rw [alLookup_set_ne _ _ _ _ (by decide)]; exact h
    · exact h
  | some s =>
    simp only [injectDefaults]
    simp only [hc, Bool.true_eq_false, and_false, if_false]
    split
    · rw [alLookup_set_ne _ _ _ _ (by decide)]; exact h
    · exact h

theorem injectDefaults_qn_inject (expires defExp : Val) (kwargs : Kw)
    (s : String) (hs : s ≠ "")
    (hnc : alContains kwargs "_queue_name" = false) :
    alLookup (injectDefaults (some s) expires defExp kwargs) "_queue_name" =
      some (.prim (.pstr s)) := by
  simp only [injectDefaults]
  rw [if_pos (And.intro hs hnc)]
  split
  · rw [alLookup_set_ne _ _ _ _ (by decide)]
    exact alLookup_set_self _ _ _
  · exact alLookup_set_self _ _ _

/-- On a successful `delay` call, the forwarded kwargs agree with the
default-injected kwargs on every key except the reserved metadata key. -/
theorem delay_ok_lookup (conn : ConnState) (pp : Option PrepubHook)
    (queue : Option String) (expires defExp : Val) (name : String)
    (args : List Val) (kwargs kwF : Kw) (k : String)
    (hconn : conn.connected = true) (hredis : optTruthy conn.redis = true)
    (hout : (delay conn pp queue expires defExp name args kwargs).2 = .ok kwF)
    (hk : k ≠ "__metadata__") :
    alLookup kwF k = alLookup (injectDefaults queue expires defExp kwargs) k := by
  simp only [delay, hconn, hredis, not_true, false_or, Bool.true_eq_false,
    if_false, ite_false] at hout
  cases pp with
  | none =>
    rw [← Except.ok.inj hout]
  | some hook =>
    have hkf := Except.ok.inj hout
    by_cases he : (hook args (injectDefaults queue expires defExp kwargs)).isEmpty = true
    · rw [if_pos he] at hkf
      rw [← hkf]
    · rw [if_neg he] at hkf
      rw [← hkf, alLookup_set_ne _ _ _ _ (Ne.symm hk)]

/-- Counterexample for C6: a task declaring the empty string as its default
queue and a zero timedelta as its declared expires. The caller supplies
neither override, yet the forwarded kwargs carry no `_queue_name` at all and
carry the application default (one day), not the declared zero, as
`_expires` — Python truthiness (`if queue`, `expires or default`) skips
falsy declared values. -/
theorem delay_injection_counterexample :
    (delay { connected := true, redis := some (.pool 0) } none (some "")
      (Val.vtd 0) TD_1_DAY "t" [] []).2 = .ok [("_expires", Val.vtd 86400)] ∧
    alLookup [("_expires", Val.vtd 86400)] "_queue_name" = (none : Option Val) ∧
    alLookup [("_expires", Val.vtd 86400)] "_expires" = some (Val.vtd 86400) ∧
    Val.vtd 86400 ≠ Val.vtd 0 := by
  refine ⟨rfl, rfl, rfl, by decide⟩

/-- Claim C6 (amended): caller-supplied `_queue_name` and `_expires` are
forwarded verbatim; with `_queue_name` absent the declared queue is injected
provided it is truthy (a non-empty string); with `_expires` absent the
injected value is `expires or default`, i.e. the declared expires when that
value is truthy (non-None, non-zero), otherwise the application default. -/
theorem delay_injection_amended (conn : ConnState) (pp : Option PrepubHook)
    (queue : Option String) (expires defExp : Val) (name : String)
    (args : List Val) (kwargs kwF : Kw)
    (hconn : conn.connected = true) (hredis : optTruthy conn.redis = true)
    (hout : (delay conn pp queue expires defExp name args kwargs).2 = .ok kwF) :
    (∀ v, alLookup kwargs "_queue_name" = some v →
      alLookup kwF "_queue_name" = some v) ∧
    (∀ v, alLookup kwargs "_expires" = some v →
      alLookup kwF "_expires" = some v) ∧
    (∀ s, queue = some s → s ≠ "" → alContains kwargs "_queue_name" = false →
      alLookup kwF "_queue_name" = some (.prim (.pstr s))) ∧
    (alContains kwargs "_expires" = false →
      alLookup kwF "_expires" = some (pyOrVal expires defExp)) := by
  refine ⟨?_, ?_, ?_, ?_⟩
  · intro v hv
    rw [delay_ok_lookup conn pp queue expires defExp name args kwargs kwF _
      hconn hredis hout (by decide)]
    exact injectDefaults_qn_present queue expires defExp kwargs v hv
  · intro v hv
    rw [delay_ok_lookup conn pp queue expires defExp name args kwargs kwF _
      hconn hredis hout (by decide)]
    exact injectDefaults_expires_present queue expires defExp kwargs v hv
  · intro s hq hs hnc
    subst hq
    rw [delay_ok_lookup conn pp (some s) expires defExp name args kwargs kwF _
      hconn hredis hout (by decide)]
    exact injectDefaults_qn_inject expires defExp kwargs s hs hnc
  · intro hnc
    rw [delay_ok_lookup conn pp queue expires defExp name args kwargs kwF _
      hconn hredis hout (by decide)]
    exact injectDefaults_expires_absent queue expires defExp kwargs hnc

/-- Witness for the amended C6: queue `math` injected, caller-supplied
five-second expiry forwarded verbatim. -/
theorem delay_injection_amended_witness :
    (∀ v, alLookup [("_expires", Val.vtd 5)] "_queue_name" = some v →
      alLookup [("_expires", Val.vtd 5), ("_queue_name", Val.prim (.pstr "math"))]
        "_queue_name" = some v) ∧
    (∀ v, alLookup [("_expires", Val.vtd 5)] "_expires" = some v →
      alLookup [("_expires", Val.vtd 5), ("_queue_name", Val.prim (.pstr "math"))]
        "_expires" = some v) ∧
    (∀ s, some "math" = some s → s ≠ "" →
      alContains [("_expires", Val.vtd 5)] "_queue_name" = false →
      alLookup [("_expires", Val.vtd 5), ("_queue_name", Val.prim (.pstr "math"))]
        "_queue_name" = some (.prim (.pstr s))) ∧
    (alContains [("_expires", Val.vtd 5)] "_expires" = false →
      alLookup [("_expires", Val.vtd 5), ("_queue_name", Val.prim (.pstr "math"))]
        "_expires" = some (pyOrVal (Val.vtd 10) TD_1_DAY)) :=
  delay_injection_amended { connected := true, redis := some (.pool 7) } none
    (some "math") (Val.vtd 10) TD_1_DAY "add"
    [Val.prim (.pint 1), Val.prim (.pint 2)] [("_expires", Val.vtd 5)]
    [("_expires", Val.vtd 5), ("_queue_name", Val.prim (.pstr "math"))]
    rfl rfl rfl

/-! ### Cron binding (claim C7) -/

theorem lget_set_ne {α : Type} (l : List α) (i j : Nat) (x : α) (hij : i ≠ j) :
    (l.set i x).get? j = l.get? j := by
  induction l generalizing i j with
  | nil => simp
  | cons hd tl ih =>
    cases i with
    | zero =>
      cases j with
      | zero => exact absurd rfl hij
      | succ j' => simp [List.set]
    | succ i' =>
      cases j with
      | zero => simp [List.set]
      | succ j' => simpa [List.set] using ih i' j' (fun hh => hij (by rw [hh]))

theorem lset_getD_self {α : Type} (l : List α) (i : Nat) (x d : α)
    (hi : i < l.length) : (l.set i x).getD i d = x := by
  induction l generalizing i with
  | nil => simp at hi
  | cons hd tl ih =>
    cases i with
    | zero => simp [List.set, List.getD]
    | succ i' =>
      have := ih i' (by simpa using hi)
      simpa [List.set, List.getD] using this

theorem lset_oob {α : Type} (l : List α) (i : Nat) (x : α)
    (hi : ¬ i < l.length) : l.set i x = l := by
  induction l generalizing i with
  | nil => simp
  | cons hd tl ih =>
    cases i with
    | zero => simp at hi
    | succ i' =>
      have := ih i' (by simpa using hi)
      simp [List.set, this]

/-- One `add_cron_jobs` step with a valid head rewrites that job's cell and
appends it to the configuration list. -/
theorem addCronJobs_cons_valid (reg : Registry) (h : Heap) (listRef a : Nat)
    (rest : List Nat) (fid : FnId) (af : ArqFunction)
    (hcell : h.crons.get? a = some (.cron fid))
    (hlk : regLookup reg fid = some af) :
    addCronJobs reg h listRef (a :: rest) =
      addCronJobs reg
        { dicts := h.dicts,
          lists := h.lists.set listRef (h.lists.getD listRef [] ++ [a]),
          crons := h.crons.set a (.cron af.coroutine) } listRef rest := by
  conv_lhs => unfold addCronJobs
  rw [hcell]
  simp only
  rw [hlk]

/-- A failing `add_cron_jobs` call: if any supplied object is invalid (for
the registry and heap at call time), the call raises. -/
theorem addCronJobs_invalid_raises (reg : Registry) :
    ∀ (jobs : List Nat) (h : Heap) (listRef : Nat),
      (∃ a ∈ jobs, cronInvalid reg h a) →
      ((addCronJobs reg h listRef jobs).2).isSome = true := by
  intro jobs
  induction jobs with
  | nil => rintro h listRef ⟨a, ha, _⟩; cases ha
  | cons b rest ih =>
    rintro h listRef ⟨a, ha, hinv⟩
    cases hcell : h.crons.get? b with
    | none => unfold addCronJobs; rw [hcell]; rfl
    | some cell =>
      cases cell with
      | notCron => unfold addCronJobs; rw [hcell]; rfl
      | cron fid =>
        cases hlk : regLookup reg fid with
        | none =>
          unfold addCronJobs
          rw [hcell]
          simp only
          rw [hlk]
          rfl
        | some af =>
          have hab : a ≠ b := by
            intro hab
            subst hab
            unfold cronInvalid at hinv
            rw [hcell] at hinv
            simp only at hinv
            rw [hlk] at hinv
            cases hinv
          have harest : a ∈ rest := by
            rcases List.mem_cons.mp ha with h1 | h1
            · exact absurd h1 hab
            · exact h1
          rw [addCronJobs_cons_valid reg h listRef b rest fid af hcell hlk]
          refine ih _ _ ⟨a, harest, ?_⟩
          unfold cronInvalid
          simp only
          rw [lget_set_ne _ _ _ _ (Ne.symm hab)]
          unfold cronInvalid at hinv
          exact hinv

/-- Whatever `add_cron_jobs` does, the configuration list only ever grows at
its end: its value before the call is a prefix of its value after. -/
theorem addCronJobs_list_grows (reg : Registry) :
    ∀ (jobs : List Nat) (h : Heap) (listRef : Nat),
      ∃ t, (addCronJobs reg h listRef jobs).1.lists.getD listRef [] =
        h.lists.getD listRef [] ++ t := by
  intro jobs
  induction jobs with
  | nil =>
    intro h listRef
    exact ⟨[], by simp [addCronJobs]⟩
  | cons b rest ih =>
    intro h listRef
    cases hcell : h.crons.get? b with
    | none =>
      refine ⟨[], ?_⟩
      unfold addCronJobs
      rw [hcell]
      simp
    | some cell =>
      cases cell with
      | notCron =>
        refine ⟨[], ?_⟩
        unfold addCronJobs
        rw [hcell]
        simp
      | cron fid =>
        cases hlk : regLookup reg fid with
        | none =>
          refine ⟨[], ?_⟩
          unfold addCronJobs
          rw [hcell]
          simp only
          rw [hlk]
          simp
        | some af =>
          rw [addCronJobs_cons_valid reg h listRef b rest fid af hcell hlk]
          obtain ⟨t2, ht2⟩ := ih
            { dicts := h.dicts,
              lists := h.lists.set listRef (h.lists.getD listRef [] ++ [b]),
              crons := h.crons.set b (.cron af.coroutine) } listRef
          by_cases hr : listRef < h.lists.length
          · rw [lset_getD_self _ _ _ _ hr] at ht2
            refine ⟨[b] ++ t2, ?_⟩
            rw [ht2, List.append_assoc]
          · rw [lset_oob _ _ _ hr] at ht2 ⊢
            exact ⟨t2, ht2⟩

/-- Counterexample for C7: registry knows function 0 (wrapped id 7); the
call supplies a valid cron job (cell 0, referencing function 0) followed by
an invalid one (cell 1, referencing unregistered function 1). The call
raises, yet the configuration list has changed: the valid entry was already
appended before the exception. -/
theorem addCronJobs_partial_mutation_counterexample :
    (addCronJobs { by_original_coro := [(0, { name := "f", coroutine := 7 })] }
      { dicts := [], lists := [[]], crons := [.cron 0, .cron 1] } 0 [0, 1]).2 =
      some DarqErr.darqException ∧
    (addCronJobs { by_original_coro := [(0, { name := "f", coroutine := 7 })] }
      { dicts := [], lists := [[]], crons := [.cron 0, .cron 1] } 0
      [0, 1]).1.lists.getD 0 [] = [0] ∧
    ([0] : List Nat) ≠ [] := by
  refine ⟨rfl, rfl, by decide⟩

/-- Claim C7 (amended): a cron-binding call containing an invalid entry
(not a `CronJob`, or referencing an unregistered function) fails with an
exception; the configuration list before the call is always a prefix of the
list after, and it is unchanged exactly when no valid entry precedes the
first invalid one — in particular when the invalid entry comes first, the
call leaves the heap entirely untouched. -/
theorem addCronJobs_failure_partial_append :
    (∀ (reg : Registry) (h : Heap) (listRef : Nat) (jobs : List Nat),
      (∃ a ∈ jobs, cronInvalid reg h a) →
      ((addCronJobs reg h listRef jobs).2).isSome = true) ∧
    (∀ (reg : Registry) (h : Heap) (listRef : Nat) (jobs : List Nat),
      ∃ t, (addCronJobs reg h listRef jobs).1.lists.getD listRef [] =
        h.lists.getD listRef [] ++ t) ∧
    (∀ (reg : Registry) (h : Heap) (listRef a : Nat) (rest : List Nat),
      cronInvalid reg h a →
      addCronJobs reg h listRef (a :: rest) = (h, some DarqErr.darqException)) := by
  refine ⟨?_, ?_, ?_⟩
  · intro reg h listRef jobs hex
    exact addCronJobs_invalid_raises reg jobs h listRef hex
  · intro reg h listRef jobs
    exact addCronJobs_list_grows reg jobs h listRef
  · intro reg h listRef a rest hinv
    unfold cronInvalid at hinv
    cases hcell : h.crons.get? a with
    | none =>
      unfold addCronJobs
      rw [hcell]
    | some cell =>
      cases cell with
      | notCron =>
        unfold addCronJobs
        rw [hcell]
      | cron fid =>
        rw [hcell] at hinv
        simp only at hinv
        unfold addCronJobs
        rw [hcell]
        simp only
        rw [hinv]

/-- Witness for the amended C7. -/
theorem addCronJobs_failure_partial_append_witness :
    ((addCronJobs { by_original_coro := [] }
      { dicts := [], lists := [[]], crons := [.notCron] } 0 [0]).2).isSome = true ∧
    (∃ t, (addCronJobs { by_original_coro := [] }
      { dicts := [], lists := [[]], crons := [.notCron] } 0 [0]).1.lists.getD 0 [] =
      ({ dicts := [], lists := [[]], crons := [.notCron] } : Heap).lists.getD 0 [] ++ t) ∧
    addCronJobs { by_original_coro := [] }
      { dicts := [], lists := [[]], crons := [.notCron] } 0 [0] =
      ({ dicts := [], lists := [[]], crons := [.notCron] }, some DarqErr.darqException) :=
  ⟨addCronJobs_failure_partial_append.1 _ _ 0 [0]
    ⟨0, List.mem_singleton.mpr rfl, trivial⟩,
   addCronJobs_failure_partial_append.2.1 _ _ 0 [0],
   addCronJobs_failure_partial_append.2.2 _ _ 0 0 [] trivial⟩

/-! ### Constructor frame property (claim C10) -/

theorem lget_append {α : Type} (l : List α) (x : α) (i : Nat)
    (hi : i < l.length) : (l ++ [x]).get? i = l.get? i := by
  induction l generalizing i with
  | nil => simp at hi
  | cons hd tl ih =>
    cases i with
    | zero => rfl
    | succ i' => simpa using ih i' (by simpa using hi)

theorem lset_append {α : Type} (l : List α) (x y : α) :
    (l ++ [x]).set l.length y = l ++ [y] := by
  induction l with
  | nil => rfl
  | cons hd tl ih => simp [List.set, ih]

theorem lgetD_append_self {α : Type} (l : List α) (x d : α) :
    (l ++ [x]).getD l.length d = x := by
  induction l with
  | nil => rfl
  | cons hd tl ih => simp [List.getD, ih]

/-- With an empty registry — the state inside `__init__` — `add_cron_jobs`
never mutates the heap: it either receives no jobs or raises at the very
first one before any mutation. -/
theorem addCronJobs_empty_reg (h : Heap) (listRef : Nat) (jobs : List Nat) :
    (addCronJobs { by_original_coro := [] } h listRef jobs).1 = h := by
  cases jobs with
  | nil => rfl
  | cons a rest =>
    unfold addCronJobs
    cases hcell : h.crons.get? a with
    | none => rfl
    | some cell =>
      cases cell with
      | notCron => rfl
      | cron fid => rfl

/-- A successful constructor tail pins down both the final heap (the copy
dict rewritten to point at the freshly allocated empty cron list) and the
application object. -/
theorem darqInitFinish_ok (h2 : Heap) (copyRef : Nat) (d : List (String × DV))
    (elems : List Nat) (h' : Heap) (app : DarqApp)
    (hres : darqInitFinish h2 copyRef d elems = (h', .ok app)) :
    h' = { dicts := (h2.dicts.set copyRef
             (alSet (alErase d "cron_jobs") "cron_jobs" (.cronList h2.lists.length))),
           lists := h2.lists ++ [[]], crons := h2.crons } ∧
    app = { registry := { by_original_coro := [] }, configRef := copyRef,
            cronListRef := h2.lists.length, conn := initConn d } := by
  unfold darqInitFinish at hres
  simp only at hres
  rcases hadd : addCronJobs { by_original_coro := [] }
      { dicts := h2.dicts.set copyRef
          (alSet (alErase d "cron_jobs") "cron_jobs" (.cronList h2.lists.length)),
        lists := h2.lists ++ [[]], crons := h2.crons }
      h2.lists.length elems with ⟨h5, err⟩
  rw [hadd] at hres
  cases err with
  | some e => simp at hres
  | none =>
    have h54 : h5 =
        { dicts := h2.dicts.set copyRef
            (alSet (alErase d "cron_jobs") "cron_jobs" (.cronList h2.lists.length)),
          lists := h2.lists ++ [[]], crons := h2.crons } := by
      have hh := addCronJobs_empty_reg
        { dicts := h2.dicts.set copyRef
            (alSet (alErase d "cron_jobs") "cron_jobs" (.cronList h2.lists.length)),
          lists := h2.lists ++ [[]], crons := h2.crons } h2.lists.length elems
      rw [hadd] at hh
      exact hh
    simp only [Prod.mk.injEq, Except.ok.injEq] at hres
    exact ⟨hres.1 ▸ h54, hres.2.symm⟩

/-- Frame property of the constructor tail, phrased against the caller's
heap: pre-existing dicts, lists and cron cells are untouched, and the
application's own config dict is a fresh cell whose `cron_jobs` entry points
at the freshly allocated list. -/
theorem darqInitFinish_frame (h : Heap) (d : List (String × DV))
    (elems : List Nat) (h' : Heap) (app : DarqApp)
    (hres : darqInitFinish
      { dicts := (h.dicts ++ [d]).set h.dicts.length (alErase d "cron_jobs"),
        lists := h.lists, crons := h.crons } h.dicts.length d elems =
      (h', .ok app)) :
    (∀ i, i < h.dicts.length → h'.dicts.get? i = h.dicts.get? i) ∧
    (∀ i, i < h.lists.length → h'.lists.get? i = h.lists.get? i) ∧
    h'.crons = h.crons ∧
    app.configRef = h.dicts.length ∧
    alLookup (h'.dicts.getD app.configRef []) "cron_jobs" =
      some (DV.cronList app.cronListRef) := by
  obtain ⟨hh', happ⟩ := darqInitFinish_ok _ _ _ _ _ _ hres
  subst hh'
  subst happ
  simp only
  have hd1 : ((h.dicts ++ [d]).set h.dicts.length (alErase d "cron_jobs")) =
      h.dicts ++ [alErase d "cron_jobs"] := lset_append _ _ _
  have hd2 : ((h.dicts ++ [alErase d "cron_jobs"]).set h.dicts.length
      (alSet (alErase d "cron_jobs") "cron_jobs" (.cronList h.lists.length))) =
      h.dicts ++ [alSet (alErase d "cron_jobs") "cron_jobs"
        (.cronList h.lists.length)] := lset_append _ _ _
  refine ⟨?_, ?_, trivial, trivial, ?_⟩
  · intro i hi
    simp only [hd1, hd2]
    exact lget_append _ _ _ hi
  · intro i hi
    exact lget_append _ _ _ hi
  · simp only [hd1, hd2, lgetD_append_self]
    exact alLookup_set_self _ _ _

/-- Claim C10: a configuration mapping without reserved keys that the
constructor accepts is not mutated: every pre-existing heap cell — the
caller's dict, any `cron_jobs` list it references, and the cron objects in
it — is unchanged after construction, while the application's own config is
a fresh dict whose `cron_jobs` entry is a freshly allocated list. -/
theorem darqInit_no_caller_mutation (h : Heap) (cfgRef : Nat) (h' : Heap)
    (app : DarqApp)
    (hf : alContains (h.dicts.getD cfgRef []) "functions" = false)
    (hq : alContains (h.dicts.getD cfgRef []) "queue_name" = false)
    (hres : darqInit h cfgRef = (h', .ok app)) :
    (∀ i, i < h.dicts.length → h'.dicts.get? i = h.dicts.get? i) ∧
    (∀ i, i < h.lists.length → h'.lists.get? i = h.lists.get? i) ∧
    h'.crons = h.crons ∧
    app.configRef = h.dicts.length ∧
    alLookup (h'.dicts.getD app.configRef []) "cron_jobs" =
      some (DV.cronList app.cronListRef) := by
  unfold darqInit at hres
  simp only [hf, hq, Bool.false_eq_true, if_false, ite_false] at hres
  cases hcv : alLookup (h.dicts.getD cfgRef []) "cron_jobs" with
  | none =>
    rw [hcv] at hres
    simp only at hres
    exact darqInitFinish_frame h _ _ h' app hres
  | some v =>
    cases v with
    | cronList r =>
      rw [hcv] at hres
      simp only at hres
      exact darqInitFinish_frame h _ _ h' app hres
    | pool p =>
      rw [hcv] at hres
      simp at hres
    | settings s =>
      rw [hcv] at hres
      simp at hres
    | other b =>
      rw [hcv] at hres
      simp at hres

/-- Witness for C10: a caller config holding a redis pool and an (empty)
cron-jobs list on the heap; after construction the caller's cells are
untouched and the app's config points at a fresh list. -/
theorem darqInit_no_caller_mutation_witness :
    (∀ i, i < 1 →
      (darqInit
        { dicts := [[("redis_pool", DV.pool 4), ("cron_jobs", DV.cronList 0)]],
          lists := [[]], crons := [] } 0).1.dicts.get? i =
        ({ dicts := [[("redis_pool", DV.pool 4), ("cron_jobs", DV.cronList 0)]],
           lists := [[]], crons := [] } : Heap).dicts.get? i) ∧
    (∀ i, i < 1 →
      (darqInit
        { dicts := [[("redis_pool", DV.pool 4), ("cron_jobs", DV.cronList 0)]],
          lists := [[]], crons := [] } 0).1.lists.get? i =
        ({ dicts := [[("redis_pool", DV.pool 4), ("cron_jobs", DV.cronList 0)]],
           lists := [[]], crons := [] } : Heap).lists.get? i) ∧
    (darqInit
      { dicts := [[("redis_pool", DV.pool 4), ("cron_jobs", DV.cronList 0)]],
        lists := [[]], crons := [] } 0).1.crons = [] ∧
    ({ registry := { by_original_coro := [] }, configRef := 1, cronListRef := 1,
       conn := { connected := true, redis := some (DV.pool 4) } } : DarqApp).configRef = 1 ∧
    alLookup
      ((darqInit
        { dicts := [[("redis_pool", DV.pool 4), ("cron_jobs", DV.cronList 0)]],
          lists := [[]], crons := [] } 0).1.dicts.getD 1 []) "cron_jobs" =
      some (DV.cronList 1) :=
  darqInit_no_caller_mutation
    { dicts := [[("redis_pool", DV.pool 4), ("cron_jobs", DV.cronList 0)]],
      lists := [[]], crons := [] } 0
    (darqInit
      { dicts := [[("redis_pool", DV.pool 4), ("cron_jobs", DV.cronList 0)]],
        lists := [[]], crons := [] } 0).1
    { registry := { by_original_coro := [] }, configRef := 1, cronListRef := 1,
      conn := { connected := true, redis := some (DV.pool 4) } }
    rfl rfl rfl

end Darq
